import Mathlib

/-!
Shallow embedding of `paccmann_chemistry/models.py` (StackGRU encoder/decoder
VAE over SMILES token sequences) and proofs about it.

Modelling conventions:
* token indices are `Int`; tensors of reals are `List ℚ` (exact arithmetic in
  place of floating point);
* the batch dimension of a tensor op is an outer `List` and recurrent steps
  act elementwise along it, as the PyTorch ops do;
* the `StackGRU` cell, its `init_hidden`, `init_stack` and `criterion` come
  from `stack_rnn.py`, which is not part of the sources; they are modelled
  from the spec as abstract components of the encoder/decoder structures;
* the real exponential is an abstract function parameter `pexp : ℚ → ℚ`;
* `torch.multinomial` sampling is an oracle `sampler` giving the sampled
  token for a (step, batch row) from the unnormalized weight vector;
* device moves (`cpu()`, `to(get_device())`) and dtype casts (`double()`)
  are identities and are dropped.
-/

/-- Token indices of the SMILES vocabulary. -/
abbrev Token := Int

/-- A vector of reals (one tensor slice), modelled over `ℚ`. -/
abbrev Vec := List ℚ

/-- Contents of the differentiable stack memory, kept abstract as a flat
list of reals. -/
abbrev StackMem := List ℚ

/-- An `nn.Linear` layer: weight matrix rows and bias vector. -/
structure Linear where
  weight : List Vec
  bias : Vec

/-- Dot product of two vectors. -/
def dot (v w : Vec) : ℚ := (List.zipWith (· * ·) v w).sum

/-- Application of an `nn.Linear` layer: `W x + b`. -/
def Linear.apply (l : Linear) (x : Vec) : Vec :=
  List.zipWith (fun row b => dot row x + b) l.weight l.bias

/-- The `StackGRUEncoder` of `models.py`.

Modelled from the spec: the `cell` field is the StackRNN cell of the missing
`stack_rnn.py` ("a recurrent cell augmented with an external differentiable
stack memory ... producing (output, hidden, stack) at each step"), taking an
input token, the hidden state (one vector per layer×direction slot) and the
stack, and `init_hidden`, `init_stack` are its initial states.  The fields
`hidden_to_mu` and `hidden_to_logvar` are the two linear projections added
by `StackGRUEncoder.__init__`. -/
structure StackGRUEncoder where
  n_layers : ℕ
  n_directions : ℕ
  cell : Token → List Vec → StackMem → Vec × List Vec × StackMem
  init_hidden : List Vec
  init_stack : StackMem
  hidden_to_mu : Linear
  hidden_to_logvar : Linear

/-- The reshape pair
`hidden.view(n_layers, n_directions, batch, h)[-1].view(batch, h*n_dir)` of
`encoder_train_step`: keep the last layer's slots (one per direction) and
concatenate the directions. -/
def lastLayerHidden (n_layers n_directions : ℕ) (hidden : List Vec) : Vec :=
  (hidden.drop ((n_layers - 1) * n_directions)).flatten

/-- `StackGRUEncoder.encoder_train_step`: run the cell over the whole input
sequence from the initial hidden state and stack, then project the final
last-layer hidden state to `mu` and `logvar`. -/
def StackGRUEncoder.encoder_train_step (e : StackGRUEncoder)
    (input_seq : List Token) : Vec × Vec :=
  let hs := input_seq.foldl
    (fun (p : List Vec × StackMem) input_entry =>
      let r := e.cell input_entry p.1 p.2
      (r.2.1, r.2.2))
    (e.init_hidden, e.init_stack)
  let hidden := lastLayerHidden e.n_layers e.n_directions hs.1
  (e.hidden_to_mu.apply hidden, e.hidden_to_logvar.apply hidden)

/-- The `StackGRUDecoder` of `models.py`.

Modelled from the spec: `cell`, `init_stack` and `criterion` are the StackRNN
cell, initial stack and cross-entropy criterion of the missing
`stack_rnn.py`; `latent_to_hidden` is the linear projection added by
`StackGRUDecoder.__init__`. -/
structure StackGRUDecoder where
  n_layers : ℕ
  n_directions : ℕ
  cell : Token → List Vec → StackMem → Vec × List Vec × StackMem
  init_stack : StackMem
  criterion : Vec → Token → ℚ
  latent_to_hidden : Linear

/-- `StackGRUDecoder.decoder_train_step`: hidden state initialized as
`latent_to_hidden(latent_z)` (applied to each layer×direction slot of the
repeated latent code), then the cell is unrolled over `zip(input_seq,
target_seq)` accumulating `criterion(output, target_entry)`. -/
def StackGRUDecoder.decoder_train_step (d : StackGRUDecoder)
    (latent_z : List Vec) (input_seq target_seq : List Token) : ℚ :=
  let hidden := latent_z.map d.latent_to_hidden.apply
  ((input_seq.zip target_seq).foldl
    (fun (p : List Vec × StackMem × ℚ) pair =>
      let r := d.cell pair.1 p.1 p.2.1
      (r.2.1, r.2.2, p.2.2 + d.criterion r.1 pair.2))
    (hidden, d.init_stack, 0)).2.2

/-- One batch row of the generation loop of `generate_from_latent`: the
sequence generated so far, the row's hidden state and stack, and the input
token for the next step. -/
structure GRow where
  seq : List Token
  hidden : List Vec
  stack : StackMem
  inp : Token

/-- One sampling step of `generate_from_latent` on one batch row at row
index `i`: run the cell, form the weights `exp(output / temperature)`, draw
the next token from the multinomial oracle, append it to the sequence and
make it the next input token. -/
def rowStep (d : StackGRUDecoder) (pexp : ℚ → ℚ)
    (sampler : ℕ → ℕ → List ℚ → Token) (temperature : ℚ)
    (step i : ℕ) (r : GRow) : GRow :=
  let c := d.cell r.inp r.hidden r.stack
  let t := sampler step i (c.1.map (fun x => pexp (x / temperature)))
  ⟨r.seq ++ [t], c.2.1, c.2.2, t⟩

/-- One sampling step of `generate_from_latent` over all batch rows,
numbering the rows from `j`. -/
def genStepFrom (d : StackGRUDecoder) (pexp : ℚ → ℚ)
    (sampler : ℕ → ℕ → List ℚ → Token) (temperature : ℚ)
    (step : ℕ) : ℕ → List GRow → List GRow
  | _, [] => []
  | j, r :: rs =>
    rowStep d pexp sampler temperature step j r ::
      genStepFrom d pexp sampler temperature step (j + 1) rs

/-- The `for _ in range(generate_len)` loop of `generate_from_latent`:
`fuel` sampling steps remain, `step` numbers the current step; after each
step the loop breaks iff `batch_size == 1` and the token just sampled (and
appended) equals `end_token`. -/
def genLoop (d : StackGRUDecoder) (pexp : ℚ → ℚ)
    (sampler : ℕ → ℕ → List ℚ → Token) (temperature : ℚ)
    (end_token : Token) (batch_size : ℕ) :
    ℕ → ℕ → List GRow → List GRow
  | 0, _, rows => rows
  | fuel + 1, step, rows =>
    let rows' := genStepFrom d pexp sampler temperature step 0 rows
    if batch_size = 1 ∧ rows'.head?.map GRow.inp = some end_token then rows'
    else genLoop d pexp sampler temperature end_token batch_size fuel
      (step + 1) rows'

/-- Hidden state and stack of one batch row after the priming phase of
`generate_from_latent`: the latent code is repeated over the
`n_layers * n_directions` slots, projected by `latent_to_hidden`, and the
cell is run over all priming tokens but the last. -/
def primeState (d : StackGRUDecoder) (z : Vec) (prime_input : List Token) :
    List Vec × StackMem :=
  let hidden := (List.replicate (d.n_layers * d.n_directions) z).map
    d.latent_to_hidden.apply
  prime_input.dropLast.foldl
    (fun (p : List Vec × StackMem) t =>
      let r := d.cell t p.1 p.2
      (r.2.1, r.2.2))
    (hidden, d.init_stack)

/-- `StackGRUDecoder.generate_from_latent`: the batch size is the number of
latent codes, every row starts as a copy of the priming string, the prime
builds up the hidden state, and the sampling loop runs for `generate_len`
steps (with the batch-size-1 early break).  `none` models the `IndexError`
Python raises on `prime_input[-1]` when the priming string is empty. -/
def StackGRUDecoder.generate_from_latent (d : StackGRUDecoder)
    (pexp : ℚ → ℚ) (sampler : ℕ → ℕ → List ℚ → Token)
    (latent_z : List Vec) (prime_input : List Token) (end_token : Token)
    (generate_len : ℕ) (temperature : ℚ) : Option (List (List Token)) :=
  match prime_input.getLast? with
  | none => none
  | some input_token =>
    let batch_size := latent_z.length
    let rows := latent_z.map (fun z =>
      let hs := primeState d z prime_input
      GRow.mk prime_input hs.1 hs.2 input_token)
    some ((genLoop d pexp sampler temperature end_token batch_size
      generate_len 0 rows).map GRow.seq)

/-- Keys and values of an `nn.Module.state_dict()`, parameter tensors kept
abstract as single rationals. -/
abbrev StateDict := List (String × ℚ)

/-- The file system seen by `torch.save` / `torch.load`: an association list
from paths to saved state dicts, newest first. -/
abbrev Store := List (String × StateDict)

/-- `torch.save(obj, path)`: write the object at the path. -/
def torch_save (obj : StateDict) (path : String) (store : Store) : Store :=
  (path, obj) :: store

/-- `torch.load(path)`: read back the object most recently saved at the
path, if any. -/
def torch_load (path : String) (store : Store) : Option StateDict :=
  store.lookup path

/-- `nn.Module.load_state_dict` (strict): replace the module's state with
the loaded weights when the parameter keys match, raise otherwise. -/
def load_state_dict (current weights : StateDict) : Except String StateDict :=
  if current.map Prod.fst = weights.map Prod.fst then Except.ok weights
  else Except.error "RuntimeError: unexpected or missing keys in state_dict"

/-- The `TeacherVAE` of `models.py`: an encoder, a decoder, and the
parameter state collected by `nn.Module.state_dict()` (kept abstract). -/
structure TeacherVAE where
  encoder : StackGRUEncoder
  decoder : StackGRUDecoder
  state_dict : StateDict

/-- `TeacherVAE.encode`: delegate to the encoder's train step. -/
def TeacherVAE.encode (m : TeacherVAE) (input_seq : List Token) : Vec × Vec :=
  m.encoder.encoder_train_step input_seq

/-- `TeacherVAE.reparameterize` with the sampling noise `eps`
(`torch.randn_like(std)` in the source) made an explicit parameter:
`std = exp(0.5 * logvar)`, result `eps.mul(std).add_(mu)`. -/
def TeacherVAE.reparameterize (pexp : ℚ → ℚ) (mu logvar eps : Vec) : Vec :=
  let std := logvar.map (fun x => pexp (1 / 2 * x))
  List.zipWith (· + ·) (List.zipWith (· * ·) eps std) mu

/-- `TeacherVAE.decode`: repeat the latent code over the decoder's
`n_layers * n_directions` slots and delegate to the decoder's train step. -/
def TeacherVAE.decode (m : TeacherVAE) (latent_z : Vec)
    (input_seq target_seq : List Token) : ℚ :=
  let latent_rep :=
    List.replicate (m.decoder.n_layers * m.decoder.n_directions) latent_z
  m.decoder.decoder_train_step latent_rep input_seq target_seq

/-- `TeacherVAE.forward`: encode, reparameterize, decode, and return
`(decoder_loss, mu, logvar)`. -/
def TeacherVAE.forward (m : TeacherVAE) (pexp : ℚ → ℚ) (eps : Vec)
    (input_seq decoder_seq target_seq : List Token) : ℚ × Vec × Vec :=
  let ml := m.encode input_seq
  let latent_z := TeacherVAE.reparameterize pexp ml.1 ml.2 eps
  let decoder_loss := m.decode latent_z decoder_seq target_seq
  (decoder_loss, ml.1, ml.2)

/-- A Python generator object over values of type `α` (the sequence of
items it would yield). -/
structure PyGenerator (α : Type) where
  items : List α

/-- Python `len()` applied to a generator object: generator expressions
define no `__len__`, so the call always raises `TypeError`. -/
def pyLenOfGenerator {α : Type} (_ : PyGenerator α) : Except String ℕ :=
  Except.error "TypeError: object of type generator has no len()"

/-- The pandas DataFrame built by `TeacherVAE.generate`: column labels and
numbered molecule rows. -/
structure DataFrame where
  columns : List String
  rows : List (ℕ × List Token)

/-- `TeacherVAE.save_model`: `torch.save(self.state_dict(), path)`. -/
def TeacherVAE.save_model (m : TeacherVAE) (path : String) (store : Store) :
    Store :=
  torch_save m.state_dict path store

/-- `TeacherVAE.load_model`: `torch.load(path)` then
`self.load_state_dict(weights)`, giving back the updated model. -/
def TeacherVAE.load_model (m : TeacherVAE) (path : String) (store : Store) :
    Except String TeacherVAE :=
  match torch_load path store with
  | none => Except.error "FileNotFoundError"
  | some weights =>
    (load_state_dict m.state_dict weights).map
      (fun sd => { m with state_dict := sd })

/-- `TeacherVAE.generate`: call `generate_from_latent`, strip each molecule
(`molecule.squeeze()[1:]` then `takewhile(lambda x: x != end_token, ...)`),
then evaluate `np.arange(len(molecule_gen))` — `molecule_gen` is a generator
expression, so `len` raises `TypeError` before the iterator/DataFrame pair
can be returned. -/
def TeacherVAE.generate (m : TeacherVAE) (pexp : ℚ → ℚ)
    (sampler : ℕ → ℕ → List ℚ → Token) (latent_z : List Vec)
    (prime_input : List Token) (end_token : Token)
    (generate_len : ℕ) (temperature : ℚ) :
    Except String (List (List Token) × DataFrame) := do
  let generated_batch ←
    match m.decoder.generate_from_latent pexp sampler latent_z prime_input
        end_token generate_len temperature with
    | none => Except.error "IndexError: index -1 is out of bounds"
    | some b => Except.ok b
  let molecule_gen : PyGenerator (List Token) :=
    ⟨generated_batch.map (fun molecule =>
      (molecule.drop 1).takeWhile (fun x => x != end_token))⟩
  let molecule_iter := molecule_gen.items
  let number ← pyLenOfGenerator molecule_gen
  let mol_ds : DataFrame :=
    ⟨["molecule_number", "smiles"], (List.range number).zip molecule_gen.items⟩
  return (molecule_iter, mol_ds)

/-! Specification-side definitions, written from the claims' wording, to be
compared with the source-side definitions above. -/

/-- Running the stack-RNN cell once over every entry of a token sequence,
threading hidden state and stack (specification-side recursion). -/
def runStackRNN (cell : Token → List Vec → StackMem → Vec × List Vec × StackMem) :
    List Token → List Vec × StackMem → List Vec × StackMem
  | [], st => st
  | t :: ts, st =>
    runStackRNN cell ts ((cell t st.1 st.2).2.1, (cell t st.1 st.2).2.2)

/-- The per-step cross-entropy terms of the decoder train step: one
`criterion(output, target)` value per zipped (input, target) pair
(specification-side recursion). -/
def stepLosses (d : StackGRUDecoder) :
    List (Token × Token) → List Vec × StackMem → List ℚ
  | [], _ => []
  | p :: ps, st =>
    let r := d.cell p.1 st.1 st.2
    d.criterion r.1 p.2 :: stepLosses d ps (r.2.1, r.2.2)

/-- The autoregressive token sequence of the generation loop on batch row
`i`: at each step the cell consumes the previous token, the next token is
drawn from the weights `exp(output / temperature)`, and it becomes the input
of the next step.  The state is (hidden, stack, input token). -/
def autoTokens (d : StackGRUDecoder) (pexp : ℚ → ℚ)
    (sampler : ℕ → ℕ → List ℚ → Token) (temperature : ℚ) (i : ℕ) :
    ℕ → ℕ → List Vec × StackMem × Token → List Token
  | 0, _, _ => []
  | n + 1, step, st =>
    let c := d.cell st.2.2 st.1 st.2.1
    let t := sampler step i (c.1.map (fun x => pexp (x / temperature)))
    t :: autoTokens d pexp sampler temperature i n (step + 1) (c.2.1, c.2.2, t)

/-- Iterating `rowStep` on one batch row for a given number of steps. -/
def rowIter (d : StackGRUDecoder) (pexp : ℚ → ℚ)
    (sampler : ℕ → ℕ → List ℚ → Token) (temperature : ℚ) (i : ℕ) :
    ℕ → ℕ → GRow → GRow
  | 0, _, r => r
  | n + 1, step, r =>
    rowIter d pexp sampler temperature i n (step + 1)
      (rowStep d pexp sampler temperature step i r)

/-- The generation loop without any early break: `n` full sampling steps
over all batch rows. -/
def genIter (d : StackGRUDecoder) (pexp : ℚ → ℚ)
    (sampler : ℕ → ℕ → List ℚ → Token) (temperature : ℚ) :
    ℕ → ℕ → List GRow → List GRow
  | 0, _, rows => rows
  | n + 1, step, rows =>
    genIter d pexp sampler temperature n (step + 1)
      (genStepFrom d pexp sampler temperature step 0 rows)

/-- The elements of a list up to and including the first one satisfying the
predicate. -/
def takeThrough {α : Type} (p : α → Bool) : List α → List α
  | [] => []
  | t :: ts => if p t then [t] else t :: takeThrough p ts

/-- The state of one batch row of `generate_from_latent` when the sampling
loop starts: hidden state and stack after the priming phase, input token
the last priming token. -/
def rowInit (d : StackGRUDecoder) (z : Vec) (prime_input : List Token) :
    List Vec × StackMem × Token :=
  let hs := primeState d z prime_input
  (hs.1, hs.2, prime_input.getLastD 0)

/-! Concrete instances used by the witness theorems. -/

/-- A concrete 1×1 linear layer (identity). -/
def linTest : Linear := ⟨[[1]], [0]⟩

/-- A concrete decoder: the cell echoes its input token as the output
logits and leaves hidden state and stack unchanged. -/
def decTest : StackGRUDecoder :=
  { n_layers := 1
    n_directions := 1
    cell := fun t h s => ([(t : ℚ)], h, s)
    init_stack := []
    criterion := fun _ _ => 1
    latent_to_hidden := linTest }

/-- A concrete encoder matching `decTest`. -/
def encTest : StackGRUEncoder :=
  { n_layers := 1
    n_directions := 1
    cell := fun t h s => ([(t : ℚ)], h, s)
    init_hidden := [[0]]
    init_stack := []
    hidden_to_mu := linTest
    hidden_to_logvar := linTest }

/-- A concrete sampling oracle that always draws token 7. -/
def samplerTest : ℕ → ℕ → List ℚ → Token := fun _ _ _ => 7

/-- A concrete stand-in for the exponential. -/
def pexpTest : ℚ → ℚ := fun x => x + 1

/-- A concrete model. -/
def mTest : TeacherVAE := ⟨encTest, decTest, [("w", 1)]⟩

/-- A second concrete model with the same parameter keys as `mTest`. -/
def mTest2 : TeacherVAE := ⟨encTest, decTest, [("w", 5)]⟩

/-! Helper lemmas. -/

theorem getElem?_zipWith_eq {α β γ : Type} (f : α → β → γ) :
    ∀ (l : List α) (l' : List β) (i : ℕ),
      (List.zipWith f l l')[i]? =
        (l[i]?).bind (fun a => (l'[i]?).map (f a))
  | [], _, _ => by simp
  | _ :: _, [], _ => by simp
  | a :: l, b :: l', 0 => by simp
  | a :: l, b :: l', i + 1 => by simpa using getElem?_zipWith_eq f l l' i

/-! Claim theorems. -/

/-- C2: `TeacherVAE.forward` returns the triple `(decoder_loss, mu, logvar)`
computed as the composition of `encode`, `reparameterize` (with the sampling
noise as a parameter) and `decode`, in that pipeline order. -/
theorem C2_forward_is_composition (m : TeacherVAE) (pexp : ℚ → ℚ) (eps : Vec)
    (input_seq decoder_seq target_seq : List Token) :
    m.forward pexp eps input_seq decoder_seq target_seq =
      (m.decode
        (TeacherVAE.reparameterize pexp (m.encode input_seq).1
          (m.encode input_seq).2 eps) decoder_seq target_seq,
       (m.encode input_seq).1, (m.encode input_seq).2) := rfl

/-- C6: `TeacherVAE.reparameterize` computes `eps * exp(0.5 * logvar) + mu`
elementwise, and for inputs of equal length the result has that length. -/
theorem C6_reparameterize_elementwise (pexp : ℚ → ℚ) (mu logvar eps : Vec)
    (h1 : logvar.length = mu.length) (h2 : eps.length = mu.length) :
    (TeacherVAE.reparameterize pexp mu logvar eps).length = mu.length ∧
    ∀ (i : ℕ) (a b c : ℚ), mu[i]? = some a → logvar[i]? = some b →
      eps[i]? = some c →
      (TeacherVAE.reparameterize pexp mu logvar eps)[i]? =
        some (c * pexp (1 / 2 * b) + a) := by
  constructor
  · simp [TeacherVAE.reparameterize, h1, h2]
  · intro i a b c ha hb hc
    simp [TeacherVAE.reparameterize, getElem?_zipWith_eq, ha, hb, hc]

/-- Witness for C6 at concrete inputs. -/
theorem C6_reparameterize_elementwise_witness :
    (([(0 : ℚ), 2] : Vec).length = ([(1 : ℚ), 2] : Vec).length ∧
      ([(3 : ℚ), 4] : Vec).length = ([(1 : ℚ), 2] : Vec).length) ∧
    ((TeacherVAE.reparameterize pexpTest [1, 2] [0, 2] [3, 4]).length =
        ([(1 : ℚ), 2] : Vec).length ∧
     ∀ (i : ℕ) (a b c : ℚ), ([(1 : ℚ), 2] : Vec)[i]? = some a →
       ([(0 : ℚ), 2] : Vec)[i]? = some b →
       ([(3 : ℚ), 4] : Vec)[i]? = some c →
       (TeacherVAE.reparameterize pexpTest [1, 2] [0, 2] [3, 4])[i]? =
         some (c * pexpTest (1 / 2 * b) + a)) :=
  ⟨⟨rfl, rfl⟩, C6_reparameterize_elementwise pexpTest [1, 2] [0, 2] [3, 4] rfl rfl⟩

/-- C7: `TeacherVAE.encode` delegates to the encoder's `encoder_train_step`,
and `TeacherVAE.decode` delegates to the decoder's `decoder_train_step` on
the latent code repeated `n_layers * n_directions` times along the first
dimension. -/
theorem C7_encode_decode_delegation (m : TeacherVAE) :
    (∀ input_seq : List Token,
      m.encode input_seq = m.encoder.encoder_train_step input_seq) ∧
    (∀ (latent_z : Vec) (input_seq target_seq : List Token),
      m.decode latent_z input_seq target_seq =
        m.decoder.decoder_train_step
          (List.replicate (m.decoder.n_layers * m.decoder.n_directions)
            latent_z)
          input_seq target_seq) :=
  ⟨fun _ => rfl, fun _ _ _ => rfl⟩

/-- C10: `save_model` followed by `load_model` on the same path is a round
trip: for a model of the same architecture (same parameter keys), loading
leaves its state dict equal to the saved model's state dict. -/
theorem C10_save_load_roundtrip (m m' : TeacherVAE) (path : String)
    (store : Store)
    (h : m'.state_dict.map Prod.fst = m.state_dict.map Prod.fst) :
    (m'.load_model path (m.save_model path store)).map TeacherVAE.state_dict =
      Except.ok m.state_dict := by
  simp [TeacherVAE.load_model, TeacherVAE.save_model, torch_save, torch_load,
    load_state_dict, h, List.lookup, Except.map]

/-- Witness for C10 at concrete models, path and store. -/
theorem C10_save_load_roundtrip_witness :
    mTest2.state_dict.map Prod.fst = mTest.state_dict.map Prod.fst ∧
    (mTest2.load_model "p" (mTest.save_model "p" [])).map TeacherVAE.state_dict =
      Except.ok mTest.state_dict :=
  ⟨rfl, C10_save_load_roundtrip mTest mTest2 "p" [] rfl⟩

theorem stepLosses_length (d : StackGRUDecoder) :
    ∀ (pairs : List (Token × Token)) (st : List Vec × StackMem),
      (stepLosses d pairs st).length = pairs.length
  | [], _ => rfl
  | p :: ps, st => by simp [stepLosses, stepLosses_length d ps]

theorem decoder_foldl_loss (d : StackGRUDecoder) :
    ∀ (pairs : List (Token × Token)) (h : List Vec) (s : StackMem) (acc : ℚ),
      (pairs.foldl
        (fun (p : List Vec × StackMem × ℚ) pair =>
          let r := d.cell pair.1 p.1 p.2.1
          (r.2.1, r.2.2, p.2.2 + d.criterion r.1 pair.2))
        (h, s, acc)).2.2
        = acc + (stepLosses d pairs (h, s)).sum
  | [], h, s, acc => by simp [stepLosses]
  | p :: ps, h, s, acc => by
    simp only [List.foldl_cons, stepLosses, List.sum_cons]
    rw [decoder_foldl_loss d ps]
    ring

theorem foldl_eq_runStackRNN
    (cell : Token → List Vec → StackMem → Vec × List Vec × StackMem) :
    ∀ (l : List Token) (st : List Vec × StackMem),
      l.foldl (fun (p : List Vec × StackMem) t =>
          let r := cell t p.1 p.2
          (r.2.1, r.2.2)) st = runStackRNN cell l st
  | [], _ => rfl
  | t :: ts, st => by
    simp only [List.foldl_cons, runStackRNN]
    exact foldl_eq_runStackRNN cell ts _

/-- C3: `decoder_train_step` initializes the hidden state as the linear
projection `latent_to_hidden(latent_z)`, unrolls the stack-RNN over the
zipped (input, target) pairs, and returns the sum over those steps of the
cross-entropy criterion on the step output and target entry; the number of
accumulated terms equals the length of the shorter sequence. -/
theorem C3_decoder_train_step_loss (d : StackGRUDecoder) (latent_z : List Vec)
    (input_seq target_seq : List Token) :
    d.decoder_train_step latent_z input_seq target_seq =
      (stepLosses d (input_seq.zip target_seq)
        (latent_z.map d.latent_to_hidden.apply, d.init_stack)).sum ∧
    (stepLosses d (input_seq.zip target_seq)
        (latent_z.map d.latent_to_hidden.apply, d.init_stack)).length =
      min input_seq.length target_seq.length := by
  constructor
  · simp only [StackGRUDecoder.decoder_train_step]
    rw [decoder_foldl_loss d]
    ring
  · rw [stepLosses_length d, List.length_zip]

/-- C4: `encoder_train_step` runs the stack-RNN once over every entry of the
input sequence from the initial hidden state and stack, takes the final
hidden state of the last layer (forward/backward directions concatenated),
and returns `mu` and `logvar` as the two distinct linear projections
`hidden_to_mu` and `hidden_to_logvar` of that same final hidden state. -/
theorem C4_encoder_train_step_projections (e : StackGRUEncoder)
    (input_seq : List Token) :
    e.encoder_train_step input_seq =
      (e.hidden_to_mu.apply
        (lastLayerHidden e.n_layers e.n_directions
          (runStackRNN e.cell input_seq (e.init_hidden, e.init_stack)).1),
       e.hidden_to_logvar.apply
        (lastLayerHidden e.n_layers e.n_directions
          (runStackRNN e.cell input_seq (e.init_hidden, e.init_stack)).1)) := by
  simp only [StackGRUEncoder.encoder_train_step]
  rw [foldl_eq_runStackRNN]

theorem genStepFrom_getElem? (d : StackGRUDecoder) (pexp : ℚ → ℚ)
    (sampler : ℕ → ℕ → List ℚ → Token) (temperature : ℚ) (step : ℕ) :
    ∀ (rows : List GRow) (j i : ℕ),
      (genStepFrom d pexp sampler temperature step j rows)[i]? =
        (rows[i]?).map (rowStep d pexp sampler temperature step (j + i))
  | [], j, i => by simp [genStepFrom]
  | r :: rs, j, 0 => by simp [genStepFrom]
  | r :: rs, j, i + 1 => by
    simp only [genStepFrom, List.getElem?_cons_succ]
    rw [genStepFrom_getElem? d pexp sampler temperature step rs (j + 1) i]
    have hji : j + 1 + i = j + (i + 1) := by omega
    rw [hji]

theorem genStepFrom_length (d : StackGRUDecoder) (pexp : ℚ → ℚ)
    (sampler : ℕ → ℕ → List ℚ → Token) (temperature : ℚ) (step : ℕ) :
    ∀ (j : ℕ) (rows : List GRow),
      (genStepFrom d pexp sampler temperature step j rows).length = rows.length
  | _, [] => rfl
  | j, _ :: rs => by
    simp [genStepFrom, genStepFrom_length d pexp sampler temperature step (j + 1) rs]

theorem genIter_getElem? (d : StackGRUDecoder) (pexp : ℚ → ℚ)
    (sampler : ℕ → ℕ → List ℚ → Token) (temperature : ℚ) :
    ∀ (n step : ℕ) (rows : List GRow) (i : ℕ),
      (genIter d pexp sampler temperature n step rows)[i]? =
        (rows[i]?).map (rowIter d pexp sampler temperature i n step)
  | 0, step, rows, i => by
    cases h : rows[i]? <;> simp [genIter, rowIter, h]
  | n + 1, step, rows, i => by
    simp only [genIter]
    rw [genIter_getElem? d pexp sampler temperature n (step + 1) _ i,
      genStepFrom_getElem? d pexp sampler temperature step rows 0 i]
    cases h : rows[i]? <;> simp [rowIter, h]

theorem genLoop_batch_ne_one (d : StackGRUDecoder) (pexp : ℚ → ℚ)
    (sampler : ℕ → ℕ → List ℚ → Token) (temperature : ℚ)
    (end_token : Token) (bs : ℕ) (hbs : bs ≠ 1) :
    ∀ (n step : ℕ) (rows : List GRow),
      genLoop d pexp sampler temperature end_token bs n step rows =
        genIter d pexp sampler temperature n step rows
  | 0, _, _ => rfl
  | n + 1, step, rows => by
    simp only [genLoop, genIter]
    rw [if_neg]
    · exact genLoop_batch_ne_one d pexp sampler temperature end_token bs hbs
        n (step + 1) _
    · intro hcon
      exact hbs hcon.1

theorem genLoop_length (d : StackGRUDecoder) (pexp : ℚ → ℚ)
    (sampler : ℕ → ℕ → List ℚ → Token) (temperature : ℚ)
    (end_token : Token) (bs : ℕ) :
    ∀ (n step : ℕ) (rows : List GRow),
      (genLoop d pexp sampler temperature end_token bs n step rows).length =
        rows.length
  | 0, _, _ => rfl
  | n + 1, step, rows => by
    simp only [genLoop]
    split
    · exact genStepFrom_length d pexp sampler temperature step 0 rows
    · rw [genLoop_length d pexp sampler temperature end_token bs n (step + 1) _,
        genStepFrom_length d pexp sampler temperature step 0 rows]

theorem autoTokens_length (d : StackGRUDecoder) (pexp : ℚ → ℚ)
    (sampler : ℕ → ℕ → List ℚ → Token) (temperature : ℚ) (i : ℕ) :
    ∀ (n step : ℕ) (st : List Vec × StackMem × Token),
      (autoTokens d pexp sampler temperature i n step st).length = n
  | 0, _, _ => rfl
  | n + 1, step, st => by
    simp only [autoTokens, List.length_cons]
    rw [autoTokens_length d pexp sampler temperature i n (step + 1) _]

theorem rowIter_seq (d : StackGRUDecoder) (pexp : ℚ → ℚ)
    (sampler : ℕ → ℕ → List ℚ → Token) (temperature : ℚ) (i : ℕ) :
    ∀ (n step : ℕ) (r : GRow),
      (rowIter d pexp sampler temperature i n step r).seq =
        r.seq ++ autoTokens d pexp sampler temperature i n step
          (r.hidden, r.stack, r.inp)
  | 0, _, r => by simp [rowIter, autoTokens]
  | n + 1, step, r => by
    simp only [rowIter, autoTokens]
    rw [rowIter_seq d pexp sampler temperature i n (step + 1) _]
    simp [rowStep]

theorem takeThrough_eq_take {α : Type} (p : α → Bool) :
    ∀ l : List α, ∃ m, m ≤ l.length ∧ takeThrough p l = l.take m
  | [] => ⟨0, by simp [takeThrough]⟩
  | t :: ts => by
    by_cases hp : p t
    · exact ⟨1, by simp, by simp [takeThrough, hp]⟩
    · obtain ⟨m, hm, he⟩ := takeThrough_eq_take p ts
      exact ⟨m + 1, by simpa using hm, by simp [takeThrough, hp, he]⟩

theorem genLoop_batch_one (d : StackGRUDecoder) (pexp : ℚ → ℚ)
    (sampler : ℕ → ℕ → List ℚ → Token) (temperature : ℚ)
    (end_token : Token) :
    ∀ (n step : ℕ) (r : GRow),
      (genLoop d pexp sampler temperature end_token 1 n step [r]).map GRow.seq =
        [r.seq ++ takeThrough (fun t => t == end_token)
          (autoTokens d pexp sampler temperature 0 n step
            (r.hidden, r.stack, r.inp))]
  | 0, _, r => by simp [genLoop, autoTokens, takeThrough]
  | n + 1, step, r => by
    simp only [genLoop, genStepFrom, autoTokens]
    split
    case isTrue hcond =>
      have ht := hcond.2
      simp [rowStep] at ht
      simp [rowStep, takeThrough, ht]
    case isFalse hcond =>
      simp [rowStep] at hcond
      rw [genLoop_batch_one d pexp sampler temperature end_token n (step + 1) _]
      simp only [rowStep, takeThrough]
      simp [hcond]

theorem generate_from_latent_none (d : StackGRUDecoder) (pexp : ℚ → ℚ)
    (sampler : ℕ → ℕ → List ℚ → Token) (latent_z : List Vec)
    (prime_input : List Token) (end_token : Token) (generate_len : ℕ)
    (temperature : ℚ) (hl : prime_input.getLast? = none) :
    d.generate_from_latent pexp sampler latent_z prime_input end_token
      generate_len temperature = none := by
  simp only [StackGRUDecoder.generate_from_latent, hl]

theorem generate_from_latent_rows (d : StackGRUDecoder) (pexp : ℚ → ℚ)
    (sampler : ℕ → ℕ → List ℚ → Token) (latent_z : List Vec)
    (prime_input : List Token) (end_token : Token) (generate_len : ℕ)
    (temperature : ℚ) (res : List (List Token)) (tok : Token)
    (hl : prime_input.getLast? = some tok)
    (h : d.generate_from_latent pexp sampler latent_z prime_input end_token
      generate_len temperature = some res) :
    res = (genLoop d pexp sampler temperature end_token latent_z.length
      generate_len 0 (latent_z.map (fun z =>
        GRow.mk prime_input (primeState d z prime_input).1
          (primeState d z prime_input).2 tok))).map GRow.seq := by
  simp only [StackGRUDecoder.generate_from_latent, hl] at h
  exact (Option.some.inj h).symm

theorem generate_from_latent_length (d : StackGRUDecoder) (pexp : ℚ → ℚ)
    (sampler : ℕ → ℕ → List ℚ → Token) (latent_z : List Vec)
    (prime_input : List Token) (end_token : Token) (generate_len : ℕ)
    (temperature : ℚ) (res : List (List Token))
    (h : d.generate_from_latent pexp sampler latent_z prime_input end_token
      generate_len temperature = some res) :
    res.length = latent_z.length := by
  cases hl : prime_input.getLast? with
  | none =>
    rw [generate_from_latent_none d pexp sampler latent_z prime_input
      end_token generate_len temperature hl] at h
    cases h
  | some tok =>
    rw [generate_from_latent_rows d pexp sampler latent_z prime_input
      end_token generate_len temperature res tok hl h]
    rw [List.length_map, genLoop_length, List.length_map]

theorem generate_from_latent_getElem?_ne_one (d : StackGRUDecoder)
    (pexp : ℚ → ℚ) (sampler : ℕ → ℕ → List ℚ → Token) (latent_z : List Vec)
    (prime_input : List Token) (end_token : Token) (generate_len : ℕ)
    (temperature : ℚ) (res : List (List Token)) (i : ℕ) (z : Vec) (tok : Token)
    (hbs : latent_z.length ≠ 1)
    (hl : prime_input.getLast? = some tok)
    (h : d.generate_from_latent pexp sampler latent_z prime_input end_token
      generate_len temperature = some res)
    (hz : latent_z[i]? = some z) :
    res[i]? = some (prime_input ++ autoTokens d pexp sampler temperature i
      generate_len 0 (rowInit d z prime_input)) := by
  rw [generate_from_latent_rows d pexp sampler latent_z prime_input
    end_token generate_len temperature res tok hl h]
  rw [List.getElem?_map,
    genLoop_batch_ne_one d pexp sampler temperature end_token
      latent_z.length hbs generate_len 0 _,
    genIter_getElem? d pexp sampler temperature generate_len 0 _ i,
    List.getElem?_map, hz]
  simp only [Option.map_some']
  rw [rowIter_seq d pexp sampler temperature i generate_len 0 _]
  simp only [rowInit, primeState, List.getLastD_eq_getLast?, hl, Option.getD_some]

theorem generate_from_latent_singleton (d : StackGRUDecoder) (pexp : ℚ → ℚ)
    (sampler : ℕ → ℕ → List ℚ → Token) (z : Vec)
    (prime_input : List Token) (end_token : Token) (generate_len : ℕ)
    (temperature : ℚ) (res : List (List Token)) (tok : Token)
    (hl : prime_input.getLast? = some tok)
    (h : d.generate_from_latent pexp sampler [z] prime_input end_token
      generate_len temperature = some res) :
    res = [prime_input ++ takeThrough (fun t => t == end_token)
      (autoTokens d pexp sampler temperature 0 generate_len 0
        (rowInit d z prime_input))] := by
  rw [generate_from_latent_rows d pexp sampler [z] prime_input
    end_token generate_len temperature res tok hl h]
  simp only [List.map_cons, List.map_nil, List.length_cons, List.length_nil,
    Nat.zero_add]
  rw [genLoop_batch_one d pexp sampler temperature end_token generate_len 0 _]
  simp only [rowInit, primeState, List.getLastD_eq_getLast?, hl, Option.getD_some]

theorem genStepFrom_seq_take (d : StackGRUDecoder) (pexp : ℚ → ℚ)
    (sampler : ℕ → ℕ → List ℚ → Token) (temperature : ℚ)
    (pre : List Token) (step : ℕ) :
    ∀ (j : ℕ) (rows : List GRow),
      (∀ r ∈ rows, pre.length ≤ r.seq.length ∧ r.seq.take pre.length = pre) →
      ∀ r ∈ genStepFrom d pexp sampler temperature step j rows,
        pre.length ≤ r.seq.length ∧ r.seq.take pre.length = pre
  | _, [], _ => by simp [genStepFrom]
  | j, r0 :: rs, hrows => by
    intro r hr
    simp only [genStepFrom, List.mem_cons] at hr
    rcases hr with hr | hr
    · subst hr
      have h0 := hrows r0 (by simp)
      constructor
      · simp only [rowStep, List.length_append]
        exact le_trans h0.1 (by simp)
      · simp only [rowStep]
        rw [List.take_append_of_le_length h0.1]
        exact h0.2
    · exact genStepFrom_seq_take d pexp sampler temperature pre step (j + 1) rs
        (fun r' hr' => hrows r' (by simp [hr'])) r hr

theorem genLoop_seq_take (d : StackGRUDecoder) (pexp : ℚ → ℚ)
    (sampler : ℕ → ℕ → List ℚ → Token) (temperature : ℚ)
    (end_token : Token) (bs : ℕ) (pre : List Token) :
    ∀ (n step : ℕ) (rows : List GRow),
      (∀ r ∈ rows, pre.length ≤ r.seq.length ∧ r.seq.take pre.length = pre) →
      ∀ r ∈ genLoop d pexp sampler temperature end_token bs n step rows,
        pre.length ≤ r.seq.length ∧ r.seq.take pre.length = pre
  | 0, _, _, h => h
  | n + 1, step, rows, h => by
    simp only [genLoop]
    split
    · exact genStepFrom_seq_take d pexp sampler temperature pre step 0 rows h
    · exact genLoop_seq_take d pexp sampler temperature end_token bs pre n
        (step + 1) _
        (genStepFrom_seq_take d pexp sampler temperature pre step 0 rows h)

/-- C9: every sequence returned by `generate_from_latent` begins with the
priming tokens: its first `len(prime_input)` entries equal `prime_input`, an
invariant kept by every generation step because sampled tokens are only ever
appended after the prime prefix. -/
theorem C9_rows_begin_with_prime (d : StackGRUDecoder) (pexp : ℚ → ℚ)
    (sampler : ℕ → ℕ → List ℚ → Token) (latent_z : List Vec)
    (prime_input : List Token) (end_token : Token) (generate_len : ℕ)
    (temperature : ℚ) (res : List (List Token))
    (h : d.generate_from_latent pexp sampler latent_z prime_input end_token
      generate_len temperature = some res) :
    ∀ row ∈ res, row.take prime_input.length = prime_input := by
  cases hl : prime_input.getLast? with
  | none =>
    rw [generate_from_latent_none d pexp sampler latent_z prime_input
      end_token generate_len temperature hl] at h
    cases h
  | some tok =>
    rw [generate_from_latent_rows d pexp sampler latent_z prime_input
      end_token generate_len temperature res tok hl h]
    intro row hrow
    obtain ⟨r, hr, hseq⟩ := List.mem_map.mp hrow
    have hinv := genLoop_seq_take d pexp sampler temperature end_token
      latent_z.length prime_input generate_len 0 _ ?_ r hr
    · rw [← hseq]
      exact hinv.2
    · intro r0 hr0
      obtain ⟨z, _, hz⟩ := List.mem_map.mp hr0
      rw [← hz]
      exact ⟨le_of_eq rfl, by simp⟩

/-- Witness for C9 at a concrete generation with batch size 2, instantiated
at the first returned row. -/
theorem C9_rows_begin_with_prime_witness :
    ([(2 : Token), 4, 7]).take ([(2 : Token), 4]).length = [(2 : Token), 4] :=
  C9_rows_begin_with_prime decTest pexpTest samplerTest [[1], [2]] [2, 4] 3 1 1
    [[2, 4, 7], [2, 4, 7]] (by decide) [2, 4, 7] (by decide)

/-- C8: in `generate_from_latent` with batch size greater than 1 the early
break never fires: exactly `generate_len` sampling steps are performed and
every returned sequence has exactly `len(prime_input) + generate_len`
tokens, even when `end_token` is sampled; with batch size 1 the loop breaks
immediately after appending a sampled token equal to `end_token`, so the
single returned row is the prime followed by the autoregressive tokens cut
at the first `end_token`. -/
theorem C8_early_stop_only_batch_one (d : StackGRUDecoder) (pexp : ℚ → ℚ)
    (sampler : ℕ → ℕ → List ℚ → Token) (latent_z : List Vec)
    (prime_input : List Token) (end_token : Token) (generate_len : ℕ)
    (temperature : ℚ) (res : List (List Token))
    (h : d.generate_from_latent pexp sampler latent_z prime_input end_token
      generate_len temperature = some res) :
    (1 < latent_z.length →
      ∀ row ∈ res, row.length = prime_input.length + generate_len) ∧
    (∀ z : Vec, latent_z = [z] →
      res = [prime_input ++ takeThrough (fun t => t == end_token)
        (autoTokens d pexp sampler temperature 0 generate_len 0
          (rowInit d z prime_input))]) := by
  cases hl : prime_input.getLast? with
  | none =>
    rw [generate_from_latent_none d pexp sampler latent_z prime_input
      end_token generate_len temperature hl] at h
    cases h
  | some tok =>
    constructor
    · intro hbs row hrow
      obtain ⟨i, hi⟩ := List.mem_iff_getElem?.mp hrow
      have hilt : i < res.length := (List.getElem?_eq_some.mp hi).1
      rw [generate_from_latent_length d pexp sampler latent_z prime_input
        end_token generate_len temperature res h] at hilt
      have hz : latent_z[i]? = some latent_z[i] := List.getElem?_eq_getElem hilt
      have hrowi := generate_from_latent_getElem?_ne_one d pexp sampler
        latent_z prime_input end_token generate_len temperature res i
        latent_z[i] tok (by omega) hl h hz
      rw [hi] at hrowi
      have hrow_eq := Option.some.inj hrowi
      rw [hrow_eq, List.length_append,
        autoTokens_length d pexp sampler temperature i generate_len 0 _]
    · intro z hz0
      subst hz0
      exact generate_from_latent_singleton d pexp sampler z prime_input
        end_token generate_len temperature res tok hl h

/-- Witness for C8 at a concrete generation with batch size 2. -/
theorem C8_early_stop_only_batch_one_witness :
    (1 < ([[(1 : ℚ)], [2]] : List Vec).length →
      ∀ row ∈ [[(2 : Token), 4, 7], [2, 4, 7]],
        row.length = ([(2 : Token), 4]).length + 1) ∧
    (∀ z : Vec, ([[(1 : ℚ)], [2]] : List Vec) = [z] →
      [[(2 : Token), 4, 7], [2, 4, 7]] =
        [[(2 : Token), 4] ++ takeThrough (fun t => t == (3 : Token))
          (autoTokens decTest pexpTest samplerTest 1 0 1 0
            (rowInit decTest z [2, 4]))]) :=
  C8_early_stop_only_batch_one decTest pexpTest samplerTest [[1], [2]] [2, 4]
    3 1 1 [[2, 4, 7], [2, 4, 7]] (by decide)

/-- C5: every token generated by `generate_from_latent` is produced
autoregressively: row `i` of the result is the prime followed by a prefix of
the token sequence in which, at each of the steps, the next token is drawn
by the multinomial oracle from the weights `exp(output / temperature)` of
the cell applied to the previous token, is appended, and becomes the input
of the next step (the prefix is the full `generate_len` steps unless the
batch-size-1 early break cuts it short). -/
theorem C5_autoregressive_generation (d : StackGRUDecoder) (pexp : ℚ → ℚ)
    (sampler : ℕ → ℕ → List ℚ → Token) (latent_z : List Vec)
    (prime_input : List Token) (end_token : Token) (generate_len : ℕ)
    (temperature : ℚ) (res : List (List Token)) (i : ℕ) (z : Vec)
    (h : d.generate_from_latent pexp sampler latent_z prime_input end_token
      generate_len temperature = some res)
    (hz : latent_z[i]? = some z) :
    ∃ m ≤ generate_len,
      res[i]? = some (prime_input ++
        (autoTokens d pexp sampler temperature i generate_len 0
          (rowInit d z prime_input)).take m) := by
  cases hl : prime_input.getLast? with
  | none =>
    rw [generate_from_latent_none d pexp sampler latent_z prime_input
      end_token generate_len temperature hl] at h
    cases h
  | some tok =>
    by_cases hbs : latent_z.length = 1
    · obtain ⟨z0, hz0⟩ := List.length_eq_one.mp hbs
      subst hz0
      cases i with
      | succ n => simp at hz
      | zero =>
        simp only [List.getElem?_cons_zero, Option.some.injEq] at hz
        subst hz
        have hres := generate_from_latent_singleton d pexp sampler z0
          prime_input end_token generate_len temperature res tok hl h
        obtain ⟨m, hm, he⟩ := takeThrough_eq_take (fun t => t == end_token)
          (autoTokens d pexp sampler temperature 0 generate_len 0
            (rowInit d z0 prime_input))
        rw [autoTokens_length d pexp sampler temperature 0 generate_len 0 _]
          at hm
        refine ⟨m, hm, ?_⟩
        rw [hres, ← he]
        simp
    · refine ⟨generate_len, le_refl _, ?_⟩
      have hg := generate_from_latent_getElem?_ne_one d pexp sampler latent_z
        prime_input end_token generate_len temperature res i z tok hbs hl h hz
      rw [hg, List.take_of_length_le (le_of_eq
        (autoTokens_length d pexp sampler temperature i generate_len 0 _))]

/-- Witness for C5 at a concrete generation. -/
theorem C5_autoregressive_generation_witness :
    ∃ m ≤ 1,
      ([[(2 : Token), 4, 7], [2, 4, 7]] : List (List Token))[0]? =
        some ([(2 : Token), 4] ++
          (autoTokens decTest pexpTest samplerTest 1 0 1 0
            (rowInit decTest [1] [2, 4])).take m) :=
  C5_autoregressive_generation decTest pexpTest samplerTest [[1], [2]] [2, 4]
    3 1 1 [[2, 4, 7], [2, 4, 7]] 0 [1] (by decide) (by decide)

/-- C1: `TeacherVAE.generate` never returns the advertised
(iterator, DataFrame) pair: `molecule_gen` is a generator expression, so the
call `np.arange(len(molecule_gen))` raises `TypeError` on every input with a
nonempty priming string (an empty one already fails earlier, at
`prime_input[-1]`). -/
theorem C1_generate_raises_typeerror (m : TeacherVAE) (pexp : ℚ → ℚ)
    (sampler : ℕ → ℕ → List ℚ → Token) (latent_z : List Vec)
    (prime_input : List Token) (end_token : Token) (generate_len : ℕ)
    (temperature : ℚ) (hp : prime_input ≠ []) :
    m.generate pexp sampler latent_z prime_input end_token generate_len
      temperature =
      Except.error "TypeError: object of type generator has no len()" := by
  have hsome : prime_input.getLast?.isSome := List.getLast?_isSome.mpr hp
  obtain ⟨tok, hl⟩ := Option.isSome_iff_exists.mp hsome
  simp only [TeacherVAE.generate, StackGRUDecoder.generate_from_latent, hl,
    pyLenOfGenerator, Bind.bind, Except.bind]

/-- Witness for C1 at a concrete call. -/
theorem C1_generate_raises_typeerror_witness :
    mTest.generate pexpTest samplerTest [[1]] [2, 4, 5] 3 2 1 =
      Except.error "TypeError: object of type generator has no len()" :=
  C1_generate_raises_typeerror mTest pexpTest samplerTest [[1]] [2, 4, 5] 3 2
    1 (by decide)
